import Mathlib

/-!
Verification of the Jobberman job-scraper extraction pipeline.

The repository ships several near-duplicate full scripts inside
`src/src/main.js`.  We embed the variants that the properties under study
refer to, and we tag each definition with the script variant it comes from:

* V1 — the first script in `src/src/main.js` (lines 1–379);
* V2 — the second script (lines 380–1031): `cleanText`, `toAbs`,
  `sanitizeDescription`, `enrichFromJsonLd`, `findNextUrl`,
  `extractFromListingCard`, and the crawler `requestHandler`;
* V3 — the third script (lines 1032–1706): its `sanitizeDescription` and
  `findNextUrl`;
* V4 — the fourth script (lines 1707–2134): its `sanitizeDescription`,
  `enrichFromJsonLd` and `toAbs`.

JavaScript strings are modelled by Lean `String`; absent / `null` /
`undefined` string fields are modelled by `""` (which is exactly the falsy
case of a JS string, so `x || y` becomes `jsOr`).  Machine-level details
(UTF-16 vs UTF-8) play no role in the properties studied here.
-/

namespace Jobberman

/-- JavaScript `a || b` on strings: `""` is the only falsy string. -/
def jsOr (a b : String) : String := if a = "" then b else a

/-- Characters matched by the JavaScript regular-expression class `\s`
(the ASCII whitespace characters plus the no-break space U+00A0; the exotic
Unicode space characters do not occur in any value considered here). -/
def isJsWs (c : Char) : Bool :=
  c = ' ' || c = '\t' || c = '\n' || c = '\r' || c = '\x0b' || c = '\x0c' || c = '\u00A0'

/-- Characters of the class `[ \t\r\n]` used by the V2 `cleanText`. -/
def isNbTabNl (c : Char) : Bool :=
  c = '\u00A0' || c = '\t' || c = '\r' || c = '\n'

/-- Replace every maximal run of `p`-characters by the single character
`r` (JS `replace(/[...]+/g, r)` with a one-character replacement). -/
def collapseRuns (p : Char → Bool) (r : Char) : List Char → List Char
  | [] => []
  | [c] => if p c then [r] else [c]
  | c :: d :: cs =>
    if p c then
      if p d then collapseRuns p r (d :: cs)
      else r :: d :: collapseRuns p r cs
    else c :: collapseRuns p r (d :: cs)

/-- Fuelled worker for `collapseWs2`; each step shortens the list, so a
fuel equal to the initial length always suffices. -/
def collapseWs2Fuel : Nat → List Char → List Char
  | 0, l => l
  | _ + 1, [] => []
  | _ + 1, [c] => [c]
  | fuel + 1, c :: d :: cs =>
    if isJsWs c then
      if isJsWs d then collapseWs2Fuel fuel (' ' :: cs)
      else c :: d :: collapseWs2Fuel fuel cs
    else c :: collapseWs2Fuel fuel (d :: cs)

/-- JS `replace(/\s{2,}/g, ' ')`: every maximal whitespace run of length
at least two becomes one space; a lone whitespace character is kept as-is. -/
def collapseWs2 (l : List Char) : List Char := collapseWs2Fuel l.length l

/-- JS `String.prototype.trim` (trims `\s`, including the no-break space). -/
def trimJs (l : List Char) : List Char :=
  ((l.dropWhile isJsWs).reverse.dropWhile isJsWs).reverse

/-- `cleanText` of the V2 script (main.js 389–392):
`s.replace(/[ \t\r\n]+/g, ' ').replace(/\s{2,}/g, ' ').trim()`. -/
def cleanTextV2 (s : String) : String :=
  String.mk (trimJs (collapseWs2 (collapseRuns isNbTabNl ' ' s.data)))

/-- `cleanText` of the V4 script (main.js 1720–1723):
`s.replace(/\s+/g, ' ').replace(/[ \t\r\n]+/g, ' ').trim()`. -/
def cleanTextV4 (s : String) : String :=
  String.mk (trimJs (collapseRuns isNbTabNl ' ' (collapseRuns isJsWs ' ' s.data)))

/-- Digits-with-commas to number: JS `Number(str.replace(/,/g, ''))` for a
string of digits and commas (the empty result gives `0`, as in JS). -/
def digitsToNat (l : List Char) : Nat :=
  (l.filter (· ≠ ',')).foldl (fun acc c => acc * 10 + (c.toNat - 48)) 0

/-- Comma grouping of a reversed digit list (helper for `groupNat`). -/
def commaChunks : List Char → List Char
  | a :: b :: c :: d :: rest => a :: b :: c :: ',' :: commaChunks (d :: rest)
  | l => l

/-- JS `Number(n).toLocaleString()` for a natural number under the `en-US`
default locale of the Node runtime: decimal digits grouped by commas. -/
def groupNat (n : Nat) : String :=
  String.mk ((commaChunks (toString n).data.reverse).reverse)

/-- ASCII letter test (JS `[A-Z]` with the `i` flag). -/
def isAsciiLetter (c : Char) : Bool :=
  ('a' ≤ c && c ≤ 'z') || ('A' ≤ c && c ≤ 'Z')

/-- JS regex word character (`\w`, used by the `\b` boundary). -/
def isWordChar (c : Char) : Bool :=
  isAsciiLetter c || c.isDigit || c = '_'

/-- ASCII lower-casing (for case-insensitive regex flags). -/
def asciiLower (c : Char) : Char :=
  if 'A' ≤ c && c ≤ 'Z' then Char.ofNat (c.toNat + 32) else c

/-- List infix test by direct scanning. -/
def infixChars (pat : List Char) : List Char → Bool
  | [] => pat.isEmpty
  | c :: cs => pat.isPrefixOf (c :: cs) || infixChars pat cs

/-- Substring containment (JS `String.prototype.includes`). -/
def containsSub (s pat : String) : Bool := infixChars pat.data s.data

/-- Case-insensitive substring containment (`/pat/i.test(s)` for a literal
pattern without metacharacters). -/
def containsSubCi (s pat : String) : Bool :=
  infixChars (pat.data.map asciiLower) (s.data.map asciiLower)

/-! ## HTML document model

A minimal DOM for the fragments handled by `sanitizeDescription`:
element nodes carry a (lower-cased) tag name, an attribute list and
children; text nodes carry decoded character data.  This mirrors what the
cheerio library hands the scraper after parsing. -/

/-- A DOM node (element with attributes and children, or text). -/
inductive HNode where
  | elem : String → List (String × String) → List HNode → HNode
  | text : String → HNode
deriving Repr

mutual

/-- `$el.text()`: concatenated character data of the subtree. -/
def textContent : HNode → String
  | .text s => s
  | .elem _ _ ch => textContentList ch

/-- `textContent` over a node list, in document order. -/
def textContentList : List HNode → String
  | [] => ""
  | n :: ns => textContent n ++ textContentList ns

end

/-- Number of element children (`$el.children().length` counts elements
only, not text nodes). -/
def elemChildCount (ch : List HNode) : Nat :=
  (ch.filter (fun n => match n with | .elem _ _ _ => true | .text _ => false)).length

/-- Tags serialized without a closing tag (HTML void elements that can
occur in the fragments at hand). -/
def voidTags : List String := ["br", "img", "hr", "meta", "input", "link"]

/-- Entity-escape one text character the way cheerio serializes character
data (`&`, `<`, `>` and the no-break space). -/
def escapeTextChar (c : Char) : String :=
  if c = '&' then "&amp;"
  else if c = '<' then "&lt;"
  else if c = '>' then "&gt;"
  else if c = '\u00A0' then "&nbsp;"
  else String.singleton c

/-- Entity-escape character data. -/
def escapeText (s : String) : String :=
  s.data.foldl (fun acc c => acc ++ escapeTextChar c) ""

/-- Entity-escape one attribute-value character (also escapes `"`). -/
def escapeAttrChar (c : Char) : String :=
  if c = '"' then "&quot;" else escapeTextChar c

/-- Entity-escape an attribute value. -/
def escapeAttrVal (s : String) : String :=
  s.data.foldl (fun acc c => acc ++ escapeAttrChar c) ""

/-- Serialize an attribute list as cheerio renders it. -/
def serializeAttrs (attrs : List (String × String)) : String :=
  attrs.foldl (fun acc kv => acc ++ " " ++ kv.1 ++ "=\"" ++ escapeAttrVal kv.2 ++ "\"") ""

mutual

/-- `$root.html()`: cheerio serialization of one node. -/
def serializeNode : HNode → String
  | .text s => escapeText s
  | .elem t attrs ch =>
    if t ∈ voidTags then "<" ++ t ++ serializeAttrs attrs ++ ">"
    else "<" ++ t ++ serializeAttrs attrs ++ ">" ++ serializeList ch ++ "</" ++ t ++ ">"

/-- Serialization of a node list (the inner HTML of a container). -/
def serializeList : List HNode → String
  | [] => ""
  | n :: ns => serializeNode n ++ serializeList ns

end

/-! ## HTML fragment parsing

Model of cheerio/parse5 fragment parsing, adequate for the well-formed
fragments this pipeline produces and consumes: nested tags, double- or
single-quoted attributes, void elements and the five named entities used
by the serializer.  Recursion is by explicit fuel (an upper bound on the
remaining work), so the functions are total. -/

/-- Decode the HTML entities the serializer can produce; an `&` that does
not start a recognized entity is kept verbatim, as in parse5. -/
def decodeEntities : Nat → List Char → List Char
  | 0, l => l
  | _ + 1, [] => []
  | fuel + 1, '&' :: rest =>
    if "amp;".data.isPrefixOf rest then '&' :: decodeEntities fuel (rest.drop 4)
    else if "lt;".data.isPrefixOf rest then '<' :: decodeEntities fuel (rest.drop 3)
    else if "gt;".data.isPrefixOf rest then '>' :: decodeEntities fuel (rest.drop 3)
    else if "quot;".data.isPrefixOf rest then '"' :: decodeEntities fuel (rest.drop 5)
    else if "nbsp;".data.isPrefixOf rest then '\u00A0' :: decodeEntities fuel (rest.drop 5)
    else if "#39;".data.isPrefixOf rest then '\'' :: decodeEntities fuel (rest.drop 4)
    else '&' :: decodeEntities fuel rest
  | fuel + 1, c :: rest => c :: decodeEntities fuel rest

/-- Tag-name characters. -/
def isTagChar (c : Char) : Bool := c.isAlphanum

/-- Attribute-name characters. -/
def isAttrNameChar (c : Char) : Bool :=
  !(isJsWs c) && c ≠ '=' && c ≠ '>' && c ≠ '/' && c ≠ '"' && c ≠ '\''

/-- Parse the attribute section of an open tag, up to and including the
closing `>`.  Returns the attributes, the remaining input, and whether the
tag was self-closing (`/>`). -/
def parseAttrs : Nat → List Char → List (String × String) × List Char × Bool
  | 0, l => ([], l, false)
  | _ + 1, [] => ([], [], false)
  | fuel + 1, cs =>
    let cs := cs.dropWhile isJsWs
    match cs with
    | [] => ([], [], false)
    | '>' :: rest => ([], rest, false)
    | '/' :: '>' :: rest => ([], rest, true)
    | _ =>
      let name := cs.takeWhile isAttrNameChar
      let afterName := (cs.drop name.length).dropWhile isJsWs
      if name.isEmpty then
        -- skip a stray character to guarantee progress
        let (as, rest, sc) := parseAttrs fuel (cs.drop 1)
        (as, rest, sc)
      else
        match afterName with
        | '=' :: afterEq =>
          let afterEq := afterEq.dropWhile isJsWs
          match afterEq with
          | '"' :: v =>
            let value := v.takeWhile (· ≠ '"')
            let (as, rest, sc) := parseAttrs fuel ((v.drop value.length).drop 1)
            ((String.mk name, String.mk (decodeEntities value.length value)) :: as, rest, sc)
          | '\'' :: v =>
            let value := v.takeWhile (· ≠ '\'')
            let (as, rest, sc) := parseAttrs fuel ((v.drop value.length).drop 1)
            ((String.mk name, String.mk (decodeEntities value.length value)) :: as, rest, sc)
          | _ =>
            let value := afterEq.takeWhile (fun c => !(isJsWs c) && c ≠ '>')
            let (as, rest, sc) := parseAttrs fuel (afterEq.drop value.length)
            ((String.mk name, String.mk value) :: as, rest, sc)
        | _ =>
          let (as, rest, sc) := parseAttrs fuel afterName
          ((String.mk name, "") :: as, rest, sc)

/-- Skip a close tag `</name>` (drops everything up to and including the
next `>`). -/
def skipCloseTag (cs : List Char) : List Char :=
  ((cs.drop 2).dropWhile (· ≠ '>')).drop 1

/-- Fuelled fragment parser: parses sibling nodes until the input is
exhausted or a close tag for an enclosing element is reached (which is
left unconsumed for the caller). -/
def parseNodes : Nat → List Char → List HNode × List Char
  | 0, l => ([], l)
  | _ + 1, [] => ([], [])
  | _ + 1, '<' :: '/' :: rest => ([], '<' :: '/' :: rest)
  | fuel + 1, '<' :: c :: rest =>
    if isAsciiLetter c then
      let name := (c :: rest).takeWhile isTagChar
      let tag := String.mk (name.map asciiLower)
      let (attrs, afterOpen, selfClose) := parseAttrs (rest.length + 1) ((c :: rest).drop name.length)
      if selfClose || tag ∈ voidTags then
        let (sibs, rest2) := parseNodes fuel afterOpen
        (.elem tag attrs [] :: sibs, rest2)
      else
        let (children, rest1) := parseNodes fuel afterOpen
        let rest2 := skipCloseTag rest1
        let (sibs, rest3) := parseNodes fuel rest2
        (.elem tag attrs children :: sibs, rest3)
    else
      -- a `<` that does not open a tag is treated as character data
      let (sibs, rest2) := parseNodes fuel rest
      match sibs with
      | .text s :: ns => (.text ("<" ++ String.singleton c ++ s) :: ns, rest2)
      | _ => (.text ("<" ++ String.singleton c) :: sibs, rest2)
  | fuel + 1, c :: rest =>
    let txt := (c :: rest).takeWhile (· ≠ '<')
    let (sibs, rest2) := parseNodes fuel ((c :: rest).drop txt.length)
    (.text (String.mk (decodeEntities txt.length txt)) :: sibs, rest2)

/-- Parse an HTML fragment into a node list (model of `cheerioLoad` on a
fragment, as used by the scraper before sanitizing). -/
def parseHtml (s : String) : List HNode :=
  (parseNodes (s.data.length * 2 + 4) s.data).1

/-! ## URL resolution

`new URL(href, base)` is a platform builtin, not repository code; `jsURL`
is a model of it that is faithful on the URL shapes this scraper handles:
an `href` carrying a scheme is already absolute and resolves to itself; a
relative `href` is resolved against an absolute http(s) base; anything
else throws (here: `none`). -/

/-- Scheme characters after the leading letter (RFC 3986 / WHATWG). -/
def isSchemeTailChar (c : Char) : Bool :=
  c.isAlphanum || c = '+' || c = '-' || c = '.'

/-- Does the string start with a URL scheme (`letter tail* ':'`)? -/
def hasScheme (s : String) : Bool :=
  match s.data with
  | [] => false
  | c :: rest =>
    isAsciiLetter c &&
      ((rest.drop (rest.takeWhile isSchemeTailChar).length).head? = some ':')

/-- The test `/^https?:/i.test(s)` used by the V1/V3 `toAbs`. -/
def isHttpUrl (s : String) : Bool :=
  let l := s.data.map asciiLower
  "http:".data.isPrefixOf l || "https:".data.isPrefixOf l

/-- `scheme://host` part of an absolute hierarchical URL. -/
def originOf (base : String) : String :=
  let l := base.data
  match (l.dropWhile (· ≠ ':')).drop 1 with
  | '/' :: '/' :: hostRest =>
    let host := hostRest.takeWhile (fun c => c ≠ '/' && c ≠ '?' && c ≠ '#')
    String.mk (l.takeWhile (· ≠ ':')) ++ "://" ++ String.mk host
  | _ => base

/-- The base URL up to and including the final slash of its path. -/
def dirOf (base : String) : String :=
  let noQ := base.data.takeWhile (fun c => c ≠ '?' && c ≠ '#')
  let org := (originOf base).data
  let path := noQ.drop org.length
  let trimmed := path.reverse.dropWhile (· ≠ '/')
  if trimmed.isEmpty then String.mk org ++ "/"
  else String.mk (org ++ trimmed.reverse)

/-- Resolution of a relative reference against an absolute base. -/
def resolveRel (base href : String) : String :=
  if href = "" then base
  else if ['/', '/'].isPrefixOf href.data then
    String.mk (base.data.takeWhile (· ≠ ':')) ++ ":" ++ href
  else if href.data.head? = some '/' then originOf base ++ href
  else if href.data.head? = some '#' then String.mk (base.data.takeWhile (· ≠ '#')) ++ href
  else if href.data.head? = some '?' then
    String.mk (base.data.takeWhile (fun c => c ≠ '?' && c ≠ '#')) ++ href
  else dirOf base ++ href

/-- Model of the WHATWG URL constructor `new URL(href, base).href`
(platform builtin; normalization is the identity on the already-normalized
URLs considered here). -/
def jsURL (href base : String) : Option String :=
  if hasScheme href then some href
  else if hasScheme base && isHttpUrl base then some (resolveRel base href)
  else none

/-- `toAbs` of the V1 script (main.js 88–93; the V3 script, 1118–1123, is
identical): resolve, then keep the result only if it passes
`/^https?:/i`, otherwise return `null`. -/
def toAbsV1 (href base : String) : Option String :=
  match jsURL href base with
  | some abs => if isHttpUrl abs then some abs else none
  | none => none

/-- `toAbs` of the V2 script (main.js 396–398): resolve only; no scheme
check at all (`new URL(href, base).href` inside try/catch). -/
def toAbsV2 (href base : String) : Option String := jsURL href base

/-- `toAbs` of the V4 script (main.js 1742–1748): `new URL(...).toString()`
with `''` (not `null`) on failure, and no scheme check. -/
def toAbsV4 (href base : String) : String := (jsURL href base).getD ""

/-! ## Description sanitizers

The V2 sanitizer (main.js 411–460) and the V4 sanitizer (main.js
1757–1798).  Both clone the fragment into a fresh root, walk every
element in document order (pre-order), strip all attributes (re-applying
only a cleaned absolute `href` on anchors), replace elements outside the
allow-list by their text content, then make one sweep removing childless
elements with no text (keeping `<br>`), and serialize the root's inner
HTML.  V2 additionally collapses whitespace in the serialized string; V4
replaces a disallowed element with its raw (not cleaned) text.

The pre-order snapshot walk of the scripts is modelled by a top-down
recursive transform: when a node is visited, its ancestors are already
processed and its descendants are untouched, and nodes detached by an
earlier step are never re-attached, so their later processing has no
effect on the output. -/

/-- Tag allow-list shared by all sanitizer variants. -/
def allowedTags : List String :=
  ["p", "br", "strong", "b", "em", "i", "u", "ul", "ol", "li",
   "h1", "h2", "h3", "h4", "h5", "h6", "a", "span", "div", "section", "article"]

/-- Attribute stripping shared by the sanitizers: every attribute is
removed, and an anchor gets back a single `href` holding the absolutized
original `href`, when that resolves. -/
def cleanedAttrs (base tag : String) (attrs : List (String × String)) :
    List (String × String) :=
  if tag = "a" then
    match attrs.lookup "href" with
    | some h =>
      if h ≠ "" then
        match jsURL h base with
        | some abs => [("href", abs)]
        | none => []
      else []
    | none => []
  else []

mutual

/-- First walk of the V2 sanitizer: strip attributes, keep allowed tags,
replace a disallowed element by `cleanText` of its text (or drop it). -/
def stripPassV2 (base : String) : HNode → List HNode
  | .text s => [.text s]
  | .elem tag attrs ch =>
    if tag ∈ allowedTags then
      [.elem tag (cleanedAttrs base tag attrs) (stripPassV2List base ch)]
    else
      let t := cleanTextV2 (textContentList ch)
      if t = "" then [] else [.text t]

/-- `stripPassV2` over a sibling list. -/
def stripPassV2List (base : String) : List HNode → List HNode
  | [] => []
  | n :: ns => stripPassV2 base n ++ stripPassV2List base ns

end

mutual

/-- Second walk of the V2 sanitizer: remove elements with no text and no
element children, keeping `<br>`.  The scripts do a single pre-order
sweep, so a parent that becomes empty because this very sweep removed its
children is kept (its own check ran first). -/
def sweepV2 : HNode → List HNode
  | .text s => [.text s]
  | .elem tag attrs ch =>
    if tag = "br" then [.elem tag attrs ch]
    else if cleanTextV2 (textContentList ch) = "" && elemChildCount ch = 0 then []
    else [.elem tag attrs (sweepV2List ch)]

/-- `sweepV2` over a sibling list. -/
def sweepV2List : List HNode → List HNode
  | [] => []
  | n :: ns => sweepV2 n ++ sweepV2List ns

end

/-- Fuelled worker for `interTagWs`; each step shortens the list. -/
def interTagWsFuel : Nat → List Char → List Char
  | 0, l => l
  | _ + 1, [] => []
  | fuel + 1, '>' :: rest =>
    let run := rest.takeWhile isJsWs
    if !run.isEmpty && (rest.drop run.length).head? = some '<' then
      '>' :: '<' :: interTagWsFuel fuel ((rest.drop run.length).drop 1)
    else '>' :: interTagWsFuel fuel rest
  | fuel + 1, c :: rest => c :: interTagWsFuel fuel rest

/-- JS `html.replace(/>\s+</g, '><')`: drop whitespace runs that sit
between a closing `>` and an opening `<` (scanning resumes after each
replacement, as a global regex replace does). -/
def interTagWs (l : List Char) : List Char := interTagWsFuel l.length l

/-- Final string cleanup of the V2 sanitizer (main.js 458):
`html.replace(/>\s+</g, '><').replace(/\s{2,}/g, ' ').trim()`. -/
def postProcessV2 (s : String) : String :=
  String.mk (trimJs (collapseWs2 (interTagWs s.data)))

/-- `sanitizeDescription` of the V2 script (main.js 411–460) on an
already-parsed fragment (a node list appended into the fresh root). -/
def sanitizeNodesV2 (base : String) (ns : List HNode) : String :=
  postProcessV2 (serializeList (sweepV2List (stripPassV2List base ns)))

/-- `sanitizeDescription` of the V2 script as a string-to-string function:
the fragment is parsed by cheerio and the sanitized root is re-serialized. -/
def sanitizeDescriptionV2 (base x : String) : String :=
  sanitizeNodesV2 base (parseHtml x)

mutual

/-- First walk of the V4 sanitizer (main.js 1765–1787): as V2, but a
disallowed element is replaced by its raw text (`$node.text()`), the
emptiness of which is judged by `cleanText`. -/
def stripPassV4 (base : String) : HNode → List HNode
  | .text s => [.text s]
  | .elem tag attrs ch =>
    if tag ∈ allowedTags then
      [.elem tag (cleanedAttrs base tag attrs) (stripPassV4List base ch)]
    else
      let t := textContentList ch
      if cleanTextV4 t = "" then [] else [.text t]

/-- `stripPassV4` over a sibling list. -/
def stripPassV4List (base : String) : List HNode → List HNode
  | [] => []
  | n :: ns => stripPassV4 base n ++ stripPassV4List base ns

end

mutual

/-- Second walk of the V4 sanitizer (main.js 1790–1795): one pre-order
sweep removing text-less childless elements, keeping `<br>`. -/
def sweepV4 : HNode → List HNode
  | .text s => [.text s]
  | .elem tag attrs ch =>
    if tag = "br" then [.elem tag attrs ch]
    else if cleanTextV4 (textContentList ch) = "" && elemChildCount ch = 0 then []
    else [.elem tag attrs (sweepV4List ch)]

/-- `sweepV4` over a sibling list. -/
def sweepV4List : List HNode → List HNode
  | [] => []
  | n :: ns => sweepV4 n ++ sweepV4List ns

end

/-- `sanitizeDescription` of the V4 script (main.js 1757–1798) on an
already-parsed fragment; it returns the root's inner HTML with no extra
string cleanup. -/
def sanitizeNodesV4 (base : String) (ns : List HNode) : String :=
  serializeList (sweepV4List (stripPassV4List base ns))

/-! ## JSON-LD enrichment (field merge)

`enrichFromJsonLd` overlays structured-data values on the record built
from the listing seed and the selector cascade.  The V2 variant lives at
main.js 551–618, the V4 variant at main.js 1882–1933.  A JSON-LD job
posting is modelled by `JsonLdR`; string fields use `""` for
absent/falsy, `employmentType`/`occupationalCategory`/`industry` are
modelled in their string form (for arrays the scripts take the first
element, resp. join), and `baseSalary` keeps the resolved numeric
`minValue`/`maxValue` (`0` models both an absent and a zero amount, which
are equally falsy after the scripts' `|| ''` coercion). -/

/-- `hiringOrganization`: the scripts read `.name || ['@name']`. -/
structure OrgR where
  name : String
  atName : String
deriving Repr, DecidableEq

/-- A `jobLocation.address` node. -/
structure AddrR where
  streetAddress : String
  addressLocality : String
  addressRegion : String
  addressCountry : String
deriving Repr, DecidableEq

/-- A resolved `baseSalary` node (`currency` may be empty → `'NGN'`). -/
structure SalR where
  currency : String
  minValue : Nat
  maxValue : Nat
deriving Repr, DecidableEq

/-- A JSON-LD `JobPosting` node, restricted to the fields the scripts read. -/
structure JsonLdR where
  title : String
  hiringOrganization : Option OrgR
  datePosted : String
  employmentType : String
  jobLocation : Option AddrR
  baseSalary : Option SalR
  occupationalCategory : String
  industry : String
  description : String
deriving Repr, DecidableEq

/-- The per-record field set flowing through `extractFromDetail`
(all string-typed; `""` is absent). -/
structure FieldsR where
  title : String
  company : String
  job_type : String
  location : String
  salary_range : String
  category : String
  description_html : String
  description_text : String
  date_posted : String
deriving Repr, DecidableEq

/-- ASCII upper-casing. -/
def asciiUpper (c : Char) : Char :=
  if 'a' ≤ c && c ≤ 'z' then Char.ofNat (c.toNat - 32) else c

/-- JS `replace(/\b\w/g, l => l.toUpperCase())`: upper-case every word
character that starts a word (boundaries judged on the original string). -/
def upperWordStarts : Option Char → List Char → List Char
  | _, [] => []
  | prev, c :: cs =>
    let boundary := match prev with | none => true | some p => !isWordChar p
    (if isWordChar c && boundary then asciiUpper c else c) :: upperWordStarts (some c) cs

/-- The V2 employment-type normalization (main.js 566–568):
`empType.replace(/_/g, ' ').replace(/\b\w/g, l => l.toUpperCase())`
(`FULL_TIME` becomes `Full Time`). -/
def employmentTypeV2 (s : String) : String :=
  String.mk (upperWordStarts none (s.data.map (fun c => if c = '_' then ' ' else c)))

/-- `Array.prototype.join` with a separator. -/
def joinSep (sep : String) : List String → String
  | [] => ""
  | [x] => x
  | x :: xs => x ++ sep ++ joinSep sep xs

/-- `[..].filter(Boolean).join(', ')`. -/
def joinComma (parts : List String) : String :=
  joinSep ", " (parts.filter (· ≠ ""))

/-- The salary `mk` helper of the scripts:
`(n) => (n === '' ? '' : currency + ' ' + Number(n).toLocaleString())`,
where an absent/zero amount was already coerced to `''` by `|| ''`. -/
def mkAmount (currency : String) (n : Nat) : String :=
  if n = 0 then "" else currency ++ " " ++ groupNat n

/-- `[mk(min), mk(max)].filter(Boolean).join(' - ')` with
`currency = sal.currency || 'NGN'` (main.js 590–597 and 1909–1914). -/
def renderBaseSalary (sal : SalR) : String :=
  let currency := jsOr sal.currency "NGN"
  joinSep " - "
    ([mkAmount currency sal.minValue, mkAmount currency sal.maxValue].filter (· ≠ ""))

/-- The V2 structured-data description HTML: the raw description is
wrapped in a `<div>`, parsed, and the wrapper is sanitized (main.js
610–613). -/
def descHtmlV2 (base desc : String) : String :=
  sanitizeNodesV2 base [HNode.elem "div" [] (parseHtml desc)]

/-- The V2 structured-data description text: `cleanText(frag.text())`
(main.js 614). -/
def descTextV2 (desc : String) : String :=
  cleanTextV2 (textContentList (parseHtml desc))

/-- `enrichFromJsonLd` of the V2 script (main.js 551–618). -/
def enrichFromJsonLdV2 (j : Option JsonLdR) (f : FieldsR) (base : String) : FieldsR :=
  match j with
  | none => f
  | some j =>
    { title := jsOr j.title f.title
      company :=
        jsOr (match j.hiringOrganization with
              | some o => jsOr o.name o.atName
              | none => "") f.company
      date_posted := jsOr j.datePosted f.date_posted
      job_type :=
        if j.employmentType ≠ "" then employmentTypeV2 j.employmentType else f.job_type
      location :=
        match j.jobLocation with
        | none => f.location
        | some a =>
          if a.streetAddress ≠ "" then a.streetAddress
          else
            let parts := joinComma [a.addressLocality, a.addressRegion, a.addressCountry]
            if parts ≠ "" then jsOr f.location parts else f.location
      salary_range :=
        match j.baseSalary with
        | none => f.salary_range
        | some sal =>
          if sal.minValue ≠ 0 || sal.maxValue ≠ 0 then
            jsOr (renderBaseSalary sal) f.salary_range
          else f.salary_range
      category :=
        if j.occupationalCategory ≠ "" && f.category = "" then j.occupationalCategory
        else if j.industry ≠ "" && f.category = "" then j.industry
        else f.category
      description_html :=
        if j.description ≠ "" then jsOr (descHtmlV2 base j.description) f.description_html
        else f.description_html
      description_text :=
        if j.description ≠ "" then jsOr (descTextV2 j.description) f.description_text
        else f.description_text }

/-- The V4 structured-data description HTML (main.js 1919–1924, using the
V4 sanitizer on the `<div>`-wrapped description). -/
def descHtmlV4 (base desc : String) : String :=
  sanitizeNodesV4 base [HNode.elem "div" [] (parseHtml desc)]

/-- The V4 structured-data description text: `cleanText(fragment.text())`
(main.js 1925). -/
def descTextV4 (desc : String) : String :=
  cleanTextV4 (textContentList (parseHtml desc))

/-- `enrichFromJsonLd` of the V4 script (main.js 1882–1933).  Differences
from V2: no `streetAddress` shortcut, no category handling, no guard on
the salary amounts, `employmentType` is used verbatim, and the
description replaces both halves together, only when both the sanitized
HTML and the clean text are non-empty (main.js 1918–1930). -/
def enrichFromJsonLdV4 (j : Option JsonLdR) (f : FieldsR) (base : String) : FieldsR :=
  match j with
  | none => f
  | some j =>
    let descOk := j.description ≠ "" ∧
      descHtmlV4 base j.description ≠ "" ∧ cleanTextV4 (descTextV4 j.description) ≠ ""
    { title := jsOr j.title f.title
      company :=
        jsOr (match j.hiringOrganization with
              | some o => jsOr o.name o.atName
              | none => "") f.company
      date_posted := jsOr j.datePosted f.date_posted
      job_type := if j.employmentType ≠ "" then j.employmentType else f.job_type
      location :=
        match j.jobLocation with
        | none => f.location
        | some a =>
          let parts := joinComma [a.addressLocality, a.addressRegion, a.addressCountry]
          if parts ≠ "" then jsOr f.location parts else f.location
      salary_range :=
        match j.baseSalary with
        | none => f.salary_range
        | some sal => jsOr (renderBaseSalary sal) f.salary_range
      category := f.category
      description_html :=
        if descOk then descHtmlV4 base j.description else f.description_html
      description_text :=
        if descOk then descTextV4 j.description else f.description_text }

/-- The cascade-over-seed stage of `extractFromDetail` (main.js 758–763):
each field is `deEllipsize(getFullText(sel)) || seedValue`, so the
cascade value wins exactly when it is non-empty. -/
def cascadeMerge (cascade seedValue : String) : String := jsOr cascade seedValue

/-! ## Crawl quota controller (V2 requestHandler, DETAIL branch)

The V2 script keeps `jobsScraped`, `jobsEnqueued` and the `scrapedUrls`
set as shared mutable state (main.js 867–869).  The DETAIL branch of its
`requestHandler` (main.js 981–1003) is:

    if (jobsScraped >= RESULTS_WANTED) return;
    if (scrapedUrls.has(request.url)) return;
    const item = extractFromDetail({ request, $ });
    if (!cleanText(item.title)) return;
    await Dataset.pushData(item);
    jobsScraped++;
    scrapedUrls.add(request.url);

`detailStep` is this handler run to completion (one task at a time).  For
the concurrency analysis the handler is split at its only interleaving
point, the `await Dataset.pushData(item)`: `ConcPhase.ready` is the code
before the await (the quota/dedup/title checks, all synchronous), and a
task that passed them is `pending`; resuming a pending task performs the
push, the increment and the set insertion.  The crawl engine is
configured with `maxConcurrency: 20` (main.js 877), so two detail tasks
can interleave exactly like this. -/

/-- A detail-page task: its URL and the record `extractFromDetail`
produces for it (only the title takes part in the control flow). -/
structure Item where
  url : String
  title : String
deriving Repr, DecidableEq

/-- The shared crawl state: `jobsScraped`, `scrapedUrls` and the pushed
dataset, in push order. -/
structure CrawlSt where
  jobsScraped : Nat
  scrapedUrls : List String
  emitted : List Item
deriving Repr, DecidableEq

/-- The state at crawl start (main.js 867–869). -/
def initSt : CrawlSt := { jobsScraped := 0, scrapedUrls := [], emitted := [] }

/-- The DETAIL handler run to completion on one task (main.js 981–1003). -/
def detailStep (target : Nat) (s : CrawlSt) (t : Item) : CrawlSt :=
  if target ≤ s.jobsScraped then s
  else if t.url ∈ s.scrapedUrls then s
  else if cleanTextV2 t.title = "" then s
  else
    { jobsScraped := s.jobsScraped + 1
      scrapedUrls := t.url :: s.scrapedUrls
      emitted := s.emitted ++ [t] }

/-- Sequential processing of a list of detail tasks. -/
def runDetails (target : Nat) (s : CrawlSt) (ts : List Item) : CrawlSt :=
  ts.foldl (detailStep target) s

/-- How many of the emitted records carry the given URL. -/
def countUrl (l : List Item) (u : String) : Nat :=
  (l.filter (fun t => t.url = u)).length

/-- Progress of one in-flight detail task. -/
inductive ConcPhase where
  | ready
  | pending
  | done
deriving Repr, DecidableEq

/-- Crawl state plus the per-task phases of the in-flight detail tasks. -/
structure ConcSt where
  st : CrawlSt
  tasks : List (Item × ConcPhase)
deriving Repr, DecidableEq

/-- Give the scheduled task its next slice.  A `ready` task runs the
synchronous checks and either finishes (skip) or blocks on the push; a
`pending` task resumes after `await Dataset.pushData`: the record is in
the dataset, then `jobsScraped++` and `scrapedUrls.add(url)` run. -/
def concStep (target : Nat) (c : ConcSt) (i : Nat) : ConcSt :=
  match c.tasks.get? i with
  | none => c
  | some (t, ph) =>
    match ph with
    | .done => c
    | .ready =>
      if target ≤ c.st.jobsScraped ∨ t.url ∈ c.st.scrapedUrls ∨ cleanTextV2 t.title = "" then
        { c with tasks := c.tasks.set i (t, .done) }
      else
        { c with tasks := c.tasks.set i (t, .pending) }
    | .pending =>
      { st :=
          { jobsScraped := c.st.jobsScraped + 1
            scrapedUrls := t.url :: c.st.scrapedUrls
            emitted := c.st.emitted ++ [t] }
        tasks := c.tasks.set i (t, .done) }

/-- Run a schedule (a list of task indices, each giving that task its
next slice) over a set of in-flight detail tasks. -/
def runSched (target : Nat) (ts : List Item) (sched : List Nat) : ConcSt :=
  sched.foldl (concStep target) { st := initSt, tasks := ts.map (·, ConcPhase.ready) }

/-! ## Pagination cursor resolver (V2 `findNextUrl`, main.js 640–652)

The document is modelled as its anchors, in document order: an anchor
has an `href`, a visible text, and a flag for `rel="next"`. -/

/-- An anchor element of the current list page. -/
structure Anchor where
  href : String
  text : String
  relNext : Bool
deriving Repr, DecidableEq

/-- `$('a[href*="?page="]').filter(a => /next/i.test(text)).attr('href')`:
the href of the first anchor whose href contains `?page=` and whose text
matches `/next/i` (an empty result is falsy, like `undefined`). -/
def nextByPageHref (doc : List Anchor) : String :=
  match doc.find? (fun a => containsSub a.href "?page=" && containsSubCi a.text "next") with
  | some a => a.href
  | none => ""

/-- `$('a[rel="next"]').attr('href')`. -/
def nextByRel (doc : List Anchor) : String :=
  match doc.find? (·.relNext) with
  | some a => a.href
  | none => ""

/-- `$('a').filter(a => /Go to next page/i.test(text)).attr('href')`. -/
def nextByText (doc : List Anchor) : String :=
  match doc.find? (fun a => containsSubCi a.text "go to next page") with
  | some a => a.href
  | none => ""

/-- The `nextLink` chain of main.js 641–644. -/
def nextLinkOf (doc : List Anchor) : String :=
  jsOr (jsOr (nextByPageHref doc) (nextByRel doc)) (nextByText doc)

/-- First match of `/[?&]page=(\d+)/`: the text before the delimiter, the
delimiter, the digit run, and the text after it. -/
def findPageParam : List Char → Option (List Char × Char × List Char × List Char)
  | [] => none
  | c :: cs =>
    if (c = '?' || c = '&') && "page=".data.isPrefixOf cs
        && (match (cs.drop 5).head? with | some d => d.isDigit | none => false) then
      let digits := (cs.drop 5).takeWhile Char.isDigit
      some ([], c, digits, (cs.drop 5).drop digits.length)
    else
      match findPageParam cs with
      | some (pre, d, ds, suf) => some (c :: pre, d, ds, suf)
      | none => none

/-- The page-parameter fallback of `findNextUrl` (main.js 647–651):
increment an existing `page` parameter, else append the initial page-2
parameter. -/
def pageFallback (currentUrl : String) : String :=
  match findPageParam currentUrl.data with
  | some (pre, d, ds, suf) =>
    String.mk pre ++ String.singleton d ++ "page=" ++ toString (digitsToNat ds + 1) ++ String.mk suf
  | none =>
    if currentUrl.data.contains '?' then currentUrl ++ "&page=2"
    else currentUrl ++ "?page=2"

/-- `findNextUrl` of the V2 script (main.js 640–652).  When an explicit
next affordance exists its href is resolved with the V2 `toAbs` (which
may return `null`); otherwise the fallback always produces a URL. -/
def findNextUrlV2 (doc : List Anchor) (currentUrl : String) : Option String :=
  if nextLinkOf doc ≠ "" then toAbsV2 (nextLinkOf doc) currentUrl
  else some (pageFallback currentUrl)

/-! ## Listing-card salary classifier (V2 `extractFromListingCard`,
main.js 685–694)

    const salLine = lines.find(l =>
      /\b([A-Z]{3})\s*\d[\d,]*(?:\s*(?:-|to)\s*([A-Z]{3})?\s*[\d,]+)?/i.test(l));
    if (salLine) {
      const m = salLine.match(
        /\b([A-Z]{3})\s*([\d,]+)(?:\s*(?:-|to)\s*([A-Z]{3})?\s*([\d,]+))?/i);
      if (m) {
        const c = m[1] || m[3] || 'NGN';
        const min = Number(m[2].replace(/,/g, ''));
        const max = m[4] ? Number(m[4].replace(/,/g, '')) : null;
        res.salary_range = max
          ? c + ' ' + min.toLocaleString() + ' - ' + c + ' ' + max.toLocaleString()
          : c + ' ' + min.toLocaleString();
      }
    }

The two regexes differ only in the first amount token (`\d[\d,]*`
versus `([\d,]+)`), captured here by the `digitFirst` flag.  The match
is simulated faithfully: leftmost position first, `\b` from the
preceding character, maximal (greedy) runs — no shorter-run backtracking
can ever help, because the character classes of adjacent regex pieces
are disjoint — and the optional tail group with its optional currency
falls back exactly as the regex engine does. -/

/-- `[\d,]` (a digit or a comma). -/
def isAmountChar (c : Char) : Bool := c.isDigit || c = ','

/-- The optional tail `(?:\s*(?:-|to)\s*([A-Z]{3})?\s*([\d,]+))?`
attempted after the first amount; returns the optional second currency
and the second amount when the group matches. -/
def salaryTail (cs : List Char) : Option (Option String × List Char) :=
  let r1 := cs.dropWhile isJsWs
  let afterSep : Option (List Char) :=
    match r1 with
    | '-' :: rest => some rest
    | a :: b :: rest =>
      if asciiLower a = 't' && asciiLower b = 'o' then some rest else none
    | _ => none
  match afterSep with
  | none => none
  | some r2 =>
    let r2 := r2.dropWhile isJsWs
    match r2 with
    | a :: b :: c :: r3 =>
      if isAsciiLetter a && isAsciiLetter b && isAsciiLetter c then
        let r4 := r3.dropWhile isJsWs
        let amt := r4.takeWhile isAmountChar
        if amt.isEmpty then
          -- the optional currency backtracks to absent; an amount must
          -- then start right here, but it begins with a letter: fail
          none
        else some (some (String.mk [a, b, c]), amt)
      else
        let amt := r2.takeWhile isAmountChar
        if amt.isEmpty then none else some (none, amt)
    | _ =>
      let amt := r2.takeWhile isAmountChar
      if amt.isEmpty then none else some (none, amt)

/-- Attempt the salary pattern anchored at the current position
(which must already satisfy `\b`). -/
def salaryAt (digitFirst : Bool) (cs : List Char) :
    Option (String × List Char × Option String × Option (List Char)) :=
  match cs with
  | c1 :: c2 :: c3 :: rest =>
    if isAsciiLetter c1 && isAsciiLetter c2 && isAsciiLetter c3 then
      let afterWs := rest.dropWhile isJsWs
      let amt1 := afterWs.takeWhile isAmountChar
      let startOk :=
        if digitFirst then (match afterWs.head? with | some d => d.isDigit | none => false)
        else !amt1.isEmpty
      if !startOk then none
      else
        let rest2 := afterWs.drop amt1.length
        match salaryTail rest2 with
        | some (cur2, amt2) => some (String.mk [c1, c2, c3], amt1, cur2, some amt2)
        | none => some (String.mk [c1, c2, c3], amt1, none, none)
    else none
  | _ => none

/-- Leftmost-first scan with the `\b` boundary (the previous character,
if any, must not be a word character for a match to start here). -/
def salaryScan (digitFirst : Bool) : Option Char → List Char →
    Option (String × List Char × Option String × Option (List Char))
  | _, [] => none
  | prev, c :: rest =>
    let boundary := match prev with | none => true | some p => !isWordChar p
    if boundary then
      match salaryAt digitFirst (c :: rest) with
      | some m => some m
      | none => salaryScan digitFirst (some c) rest
    else salaryScan digitFirst (some c) rest

/-- `line.match(/\b([A-Z]{3})\s*([\d,]+)(?:\s*(?:-|to)\s*([A-Z]{3})?\s*([\d,]+))?/i)`:
the captured groups `m[1]`, `m[2]`, `m[3]`, `m[4]`. -/
def matchSalary (line : String) :
    Option (String × List Char × Option String × Option (List Char)) :=
  salaryScan false none line.data

/-- The `lines.find` predicate
`/\b([A-Z]{3})\s*\d[\d,]*(?:\s*(?:-|to)\s*([A-Z]{3})?\s*[\d,]+)?/i.test(l)`. -/
def testSalary (line : String) : Bool :=
  (salaryScan true none line.data).isSome

/-- The render of main.js 689–692 from the captured groups. -/
def renderSalary (m : String × List Char × Option String × Option (List Char)) : String :=
  let c := jsOr m.1 (jsOr (m.2.2.1.getD "") "NGN")
  let minN := digitsToNat m.2.1
  match m.2.2.2 with
  | some a2 =>
    let maxN := digitsToNat a2
    if maxN ≠ 0 then c ++ " " ++ groupNat minN ++ " - " ++ c ++ " " ++ groupNat maxN
    else c ++ " " ++ groupNat minN
  | none => c ++ " " ++ groupNat minN

/-- The `salary_range` a single card line produces (main.js 685–694):
empty when the line is not recognized as a salary line. -/
def salaryFromLine (line : String) : String :=
  if testSalary line then
    match matchSalary line with
    | some m => renderSalary m
    | none => ""
  else ""

/-- The parsed salary the code computes before rendering: the currency
`m[1] || m[3] || 'NGN'`, `min = Number(m[2])`, and
`max = m[4] ? Number(m[4]) : null`. -/
def parseSalary (line : String) : Option (String × Nat × Option Nat) :=
  match matchSalary line with
  | some m =>
    some (jsOr m.1 (jsOr (m.2.2.1.getD "") "NGN"), digitsToNat m.2.1,
      m.2.2.2.map digitsToNat)
  | none => none

/-! ## Claims -/

/-- C2: the spec requires `sanitize(sanitize(x), base) == sanitize(x, base)`
byte-for-byte for every fragment `x`, and the sanitizer's own structure
(repeated empty-element removal passes) shows this is the intent; but the
removal is a bounded number of pre-order sweeps, so a nested empty element
survives the first sanitize and is removed by the second.  At
`x = "<div><span></span></div>"` the first sanitize keeps the `div` (its
`span` child is still attached when the `div` is checked) and removes the
`span`, giving `"<div></div>"`; sanitizing that output removes the now
childless `div`, giving `""`. -/
theorem C2_sanitize_not_idempotent :
    sanitizeDescriptionV2 "https://www.jobberman.com"
        (sanitizeDescriptionV2 "https://www.jobberman.com" "<div><span></span></div>")
      ≠ sanitizeDescriptionV2 "https://www.jobberman.com" "<div><span></span></div>"
    ∧ sanitizeDescriptionV2 "https://www.jobberman.com" "<div><span></span></div>"
      = "<div></div>"
    ∧ sanitizeDescriptionV2 "https://www.jobberman.com" "<div></div>" = "" := by
  decide

/-- C3: the emitted-record count can exceed `targetRecordCount` under the
concurrency the engine is configured with (`maxConcurrency: 20`): the
quota check `jobsScraped >= RESULTS_WANTED` and the increment
`jobsScraped++` are separated by `await Dataset.pushData(item)`, so two
detail tasks with distinct URLs can both pass the check before either
increments.  With target 1 and the interleaved schedule
[check A, check B, resume A, resume B] two records are emitted; the
sequential schedule respects the bound. -/
theorem C3_quota_race :
    (runSched 1
        [{ url := "https://www.jobberman.com/listings/a", title := "Job A" },
         { url := "https://www.jobberman.com/listings/b", title := "Job B" }]
        [0, 1, 0, 1]).st.jobsScraped = 2
    ∧ (runSched 1
        [{ url := "https://www.jobberman.com/listings/a", title := "Job A" },
         { url := "https://www.jobberman.com/listings/b", title := "Job B" }]
        [0, 0, 1, 1]).st.jobsScraped = 1 := by
  decide

/-- C8: the card salary line `"NGN 150,000 - 250,000"` parses to currency
`NGN`, minimum `150000`, maximum `250000`, and renders as
`"NGN 150,000 - NGN 250,000"`; the single-amount line `"NGN 80,000"`
renders as a single amount with no range separator. -/
theorem C8_salary_parse :
    parseSalary "NGN 150,000 - 250,000" = some ("NGN", 150000, some 250000)
    ∧ salaryFromLine "NGN 150,000 - 250,000" = "NGN 150,000 - NGN 250,000"
    ∧ salaryFromLine "NGN 80,000" = "NGN 80,000"
    ∧ containsSub (salaryFromLine "NGN 80,000") " - " = false := by
  decide

/-- C6 counterexample: in the V2 `enrichFromJsonLd` (main.js 609–615) the
two description halves fall back independently (`|| out.description_html`
and `|| out.description_text`), so a structured description of `"<br>"`
overrides `description_html` alone (its sanitized HTML `"<div><br></div>"`
is non-empty, its clean text is empty) while `description_text` keeps the
old cascade value — falsifying "it is never the case that only one of the
two halves is overridden". -/
theorem C6_description_counterexample :
    (enrichFromJsonLdV2 (some ⟨"", none, "", "", none, none, "", "", "<br>"⟩)
        ⟨"", "", "", "", "", "", "<p>old</p>", "old text", ""⟩
        "https://www.jobberman.com").description_html = "<div><br></div>"
    ∧ (enrichFromJsonLdV2 (some ⟨"", none, "", "", none, none, "", "", "<br>"⟩)
        ⟨"", "", "", "", "", "", "<p>old</p>", "old text", ""⟩
        "https://www.jobberman.com").description_text = "old text"
    ∧ ("<div><br></div>" : String) ≠ "<p>old</p>" := by
  decide

/-- C1 counterexample: the merge does not give structured data precedence
on every field.  For `category`, a populated cascade value `"C"` beats a
non-empty structured `occupationalCategory` `"B"` (main.js 603–607 write
the structured category only when `!out.category`), while the claim
demands the merged field equal the non-empty structured value `"B"`.
Also, "non-empty after normalization" is not what the code tests: a
structured title of `" "` (non-empty raw, empty after normalization)
replaces the populated lower-tier title `"A"`. -/
theorem C1_merge_precedence_counterexample :
    ((enrichFromJsonLdV2 (some ⟨"", none, "", "", none, none, "B", "", ""⟩)
        ⟨"", "", "", "", "", "C", "", "", ""⟩ "https://www.jobberman.com").category = "C"
      ∧ ("C" : String) ≠ "B")
    ∧ ((enrichFromJsonLdV2 (some ⟨" ", none, "", "", none, none, "", "", ""⟩)
        ⟨"A", "", "", "", "", "", "", "", ""⟩ "https://www.jobberman.com").title = " "
      ∧ cleanTextV2 " " = "") := by
  decide

/-! ### Helper lemmas -/

/-- The `hiringOrganization` value the V2/V4 scripts read:
`jsonLd.hiringOrganization && (name || ['@name'])` (falsy → `""`). -/
def orgName (j : JsonLdR) : String :=
  match j.hiringOrganization with
  | some o => jsOr o.name o.atName
  | none => ""

/-- A string with a space spliced into the middle is never empty. -/
lemma space_append_ne_empty (a b : String) : a ++ " " ++ b ≠ "" := by
  intro h
  have h2 := congrArg String.data h
  simp at h2

/-- A string with `" - "` spliced into the middle is never empty. -/
lemma dash_append_ne_empty (a b : String) : a ++ " - " ++ b ≠ "" := by
  intro h
  have h2 := congrArg String.data h
  simp at h2

/-- `jsOr` of anything with a non-empty fallback is non-empty. -/
lemma jsOr_ne_empty (a b : String) (hb : b ≠ "") : jsOr a b ≠ "" := by
  unfold jsOr
  split_ifs with h
  · exact hb
  · exact h

/-- A rendered amount is empty exactly for the zero (absent) amount. -/
lemma mkAmount_empty_iff (currency : String) (n : Nat) :
    mkAmount currency n = "" ↔ n = 0 := by
  unfold mkAmount
  split_ifs with h
  · simp [h]
  · simp [h]
    exact space_append_ne_empty currency (groupNat n)

/-- The rendered salary range is empty exactly when both amounts are
zero (absent) — i.e. exactly when the script's `if (min || max)` guard
fails. -/
lemma renderBaseSalary_empty_iff (sal : SalR) :
    renderBaseSalary sal = "" ↔ (sal.minValue = 0 ∧ sal.maxValue = 0) := by
  have hmk : ∀ n : Nat, ¬ n = 0 → ¬ mkAmount (jsOr sal.currency "NGN") n = "" :=
    fun n h => fun he => h ((mkAmount_empty_iff _ n).mp he)
  unfold renderBaseSalary
  by_cases hmin : sal.minValue = 0 <;> by_cases hmax : sal.maxValue = 0 <;>
    simp [hmin, hmax, (mkAmount_empty_iff _ _).mpr, hmk, joinSep, dash_append_ne_empty]

/-- Unfolding one step of `runDetails`. -/
lemma runDetails_cons (target : Nat) (s : CrawlSt) (t : Item) (ts : List Item) :
    runDetails target s (t :: ts) = runDetails target (detailStep target s t) ts := rfl

/-- A record pushed by one handler run was either already in the dataset
or passed the title gate. -/
lemma emitted_mem_step (target : Nat) (s : CrawlSt) (t : Item) (r : Item)
    (h : r ∈ (detailStep target s t).emitted) :
    r ∈ s.emitted ∨ cleanTextV2 r.title ≠ "" := by
  unfold detailStep at h
  split_ifs at h with h1 h2 h3
  all_goals try exact Or.inl h
  simp only [List.mem_append, List.mem_singleton] at h
  rcases h with h | h
  · exact Or.inl h
  · subst h; exact Or.inr h3

/-- Every record a run adds to the dataset passed the title gate. -/
lemma runDetails_emitted_titles (target : Nat) (ts : List Item) :
    ∀ (s : CrawlSt) (r : Item), r ∈ (runDetails target s ts).emitted →
      r ∈ s.emitted ∨ cleanTextV2 r.title ≠ "" := by
  induction ts with
  | nil => intro s r h; exact Or.inl h
  | cons t ts ih =>
    intro s r h
    rw [runDetails_cons] at h
    rcases ih (detailStep target s t) r h with hmem | hne
    · exact emitted_mem_step target s t r hmem
    · exact Or.inr hne

/-- `countUrl` over a one-element push. -/
lemma countUrl_append (l : List Item) (t : Item) (u : String) :
    countUrl (l ++ [t]) u = countUrl l u + (if t.url = u then 1 else 0) := by
  simp [countUrl, List.filter_append]
  split_ifs <;> simp_all

/-- `scrapedUrls` only grows across a handler run. -/
lemma detailStep_scraped_mono (target : Nat) (s : CrawlSt) (t : Item) (u : String)
    (h : u ∈ s.scrapedUrls) : u ∈ (detailStep target s t).scrapedUrls := by
  unfold detailStep
  split_ifs <;> simp [h]

/-- One handler run preserves the dedup invariant: at most one record per
URL, and none at all for a URL not yet in `scrapedUrls`. -/
lemma detailStep_count_inv (target : Nat) (s : CrawlSt) (t : Item) (u : String)
    (h1 : countUrl s.emitted u ≤ 1)
    (h2 : u ∉ s.scrapedUrls → countUrl s.emitted u = 0) :
    countUrl (detailStep target s t).emitted u ≤ 1
    ∧ (u ∉ (detailStep target s t).scrapedUrls →
        countUrl (detailStep target s t).emitted u = 0) := by
  unfold detailStep
  split_ifs with g1 g2 g3
  · exact ⟨h1, h2⟩
  · exact ⟨h1, h2⟩
  · exact ⟨h1, h2⟩
  · simp only [countUrl_append, List.mem_cons]
    by_cases hu : t.url = u
    · subst hu
      have h0 : countUrl s.emitted t.url = 0 := h2 g2
      constructor
      · simp [h0]
      · intro hmem
        exact absurd (Or.inl rfl) hmem
    · constructor
      · simp [hu]
        exact h1
      · intro hmem
        simp [hu]
        exact h2 (fun hin => hmem (Or.inr hin))

/-- The dedup invariant holds across any sequential run. -/
lemma runDetails_count_inv (target : Nat) (ts : List Item) :
    ∀ (s : CrawlSt) (u : String), countUrl s.emitted u ≤ 1 →
      (u ∉ s.scrapedUrls → countUrl s.emitted u = 0) →
      countUrl (runDetails target s ts).emitted u ≤ 1 := by
  induction ts with
  | nil => intro s u h1 _; exact h1
  | cons t ts ih =>
    intro s u h1 h2
    rw [runDetails_cons]
    have hstep := detailStep_count_inv target s t u h1 h2
    exact ih (detailStep target s t) u hstep.1 hstep.2

/-- `scrapedUrls` only grows across a sequential run. -/
lemma runDetails_scraped_mono (target : Nat) (ts : List Item) :
    ∀ (s : CrawlSt) (u : String), u ∈ s.scrapedUrls →
      u ∈ (runDetails target s ts).scrapedUrls := by
  induction ts with
  | nil => intro s u h; exact h
  | cons t ts ih =>
    intro s u h
    rw [runDetails_cons]
    exact ih (detailStep target s t) u (detailStep_scraped_mono target s t u h)

/-! ### Remaining claims -/

/-- C1 (amended): per-field merge precedence of the V2 pipeline.  The
cascade value beats the seed exactly when it is non-empty (as a raw
string).  The structured-data value beats the lower tiers when non-empty
for `title`, `company`, `date_posted`, `job_type` (normalized),
`salary_range` (when it renders non-empty) and the two description
halves; but for `category`, and for `location` when structured data
supplies only locality/region/country, a populated lower-tier value wins
and structured data only fills an empty field, while a non-empty
`streetAddress` overrides `location` unconditionally.  Non-emptiness is
judged on the raw value (JS truthiness), not after normalization. -/
theorem C1_merge_precedence_amended (j : JsonLdR) (f : FieldsR) (base : String) :
    (∀ cascade seedValue : String,
        cascadeMerge cascade seedValue = if cascade = "" then seedValue else cascade)
    ∧ (enrichFromJsonLdV2 (some j) f base).title =
        (if j.title = "" then f.title else j.title)
    ∧ (enrichFromJsonLdV2 (some j) f base).company =
        (if orgName j = "" then f.company else orgName j)
    ∧ (enrichFromJsonLdV2 (some j) f base).date_posted =
        (if j.datePosted = "" then f.date_posted else j.datePosted)
    ∧ (enrichFromJsonLdV2 (some j) f base).job_type =
        (if j.employmentType = "" then f.job_type else employmentTypeV2 j.employmentType)
    ∧ (enrichFromJsonLdV2 (some j) f base).category =
        (if f.category ≠ "" then f.category
         else if j.occupationalCategory ≠ "" then j.occupationalCategory
         else if j.industry ≠ "" then j.industry
         else f.category)
    ∧ (enrichFromJsonLdV2 (some j) f base).location =
        (match j.jobLocation with
         | none => f.location
         | some a =>
           if a.streetAddress ≠ "" then a.streetAddress
           else if joinComma [a.addressLocality, a.addressRegion, a.addressCountry] ≠ "" then
             (if f.location ≠ "" then f.location
              else joinComma [a.addressLocality, a.addressRegion, a.addressCountry])
           else f.location)
    ∧ (enrichFromJsonLdV2 (some j) f base).salary_range =
        (match j.baseSalary with
         | none => f.salary_range
         | some sal =>
           if renderBaseSalary sal = "" then f.salary_range else renderBaseSalary sal)
    ∧ (enrichFromJsonLdV2 (some j) f base).description_html =
        (if j.description = "" then f.description_html
         else if descHtmlV2 base j.description = "" then f.description_html
         else descHtmlV2 base j.description)
    ∧ (enrichFromJsonLdV2 (some j) f base).description_text =
        (if j.description = "" then f.description_text
         else if descTextV2 j.description = "" then f.description_text
         else descTextV2 j.description) := by
  refine ⟨fun c sv => rfl, ?_, ?_, ?_, ?_, ?_, ?_, ?_, ?_, ?_⟩
  · simp [enrichFromJsonLdV2, jsOr]
  · simp [enrichFromJsonLdV2, orgName, jsOr]
  · simp [enrichFromJsonLdV2, jsOr]
  · simp only [enrichFromJsonLdV2]
    split_ifs <;> simp_all
  · simp only [enrichFromJsonLdV2]
    split_ifs <;> simp_all
  · simp only [enrichFromJsonLdV2]
    rcases j.jobLocation with _ | a
    · rfl
    · split_ifs <;> simp_all [jsOr]
  · simp only [enrichFromJsonLdV2]
    rcases hb : j.baseSalary with _ | sal
    · rfl
    · have hiff := renderBaseSalary_empty_iff sal
      dsimp only
      split_ifs with g1 g2 <;> simp_all [jsOr]
  · simp only [enrichFromJsonLdV2]
    split_ifs <;> simp_all [jsOr]
  · simp only [enrichFromJsonLdV2]
    split_ifs <;> simp_all [jsOr]

/-- C4: duplicate-visit handling of the detail-stage controller.
Re-running the handler on the same task is idempotent; a task whose URL
is already in `scrapedUrls` is a strict no-op; `scrapedUrls` is
append-only across any run; any sequential run emits at most one record
per URL; and whenever a handler run emits (changes the dataset), its URL
was new and `scrapedUrls` grows by exactly one. -/
theorem C4_dedup_idempotent :
    (∀ (target : Nat) (s : CrawlSt) (t : Item),
        detailStep target (detailStep target s t) t = detailStep target s t)
    ∧ (∀ (target : Nat) (s : CrawlSt) (t : Item),
        t.url ∈ s.scrapedUrls → detailStep target s t = s)
    ∧ (∀ (target : Nat) (s : CrawlSt) (ts : List Item) (u : String),
        u ∈ s.scrapedUrls → u ∈ (runDetails target s ts).scrapedUrls)
    ∧ (∀ (target : Nat) (ts : List Item) (u : String),
        countUrl (runDetails target initSt ts).emitted u ≤ 1)
    ∧ (∀ (target : Nat) (s : CrawlSt) (t : Item),
        (detailStep target s t).emitted ≠ s.emitted →
          (detailStep target s t).scrapedUrls.length = s.scrapedUrls.length + 1
          ∧ t.url ∉ s.scrapedUrls) := by
  refine ⟨?_, ?_, ?_, ?_, ?_⟩
  · intro target s t
    by_cases h1 : target ≤ s.jobsScraped
    · simp [detailStep, h1]
    · by_cases h2 : t.url ∈ s.scrapedUrls
      · simp [detailStep, h1, h2]
      · by_cases h3 : cleanTextV2 t.title = ""
        · simp [detailStep, h1, h2, h3]
        · simp [detailStep, h1, h2, h3, List.mem_cons]
  · intro target s t h
    unfold detailStep
    split_ifs <;> rfl
  · intro target s ts u h
    exact runDetails_scraped_mono target ts s u h
  · intro target ts u
    apply runDetails_count_inv target ts initSt u
    · simp [initSt, countUrl]
    · intro _; simp [initSt, countUrl]
  · intro target s t h
    unfold detailStep at h ⊢
    split_ifs at h ⊢ with g1 g2 g3
    all_goals try exact absurd rfl h
    refine ⟨by simp, g2⟩

/-- C4 witness: the second processing of an already-scraped URL leaves
the state untouched, and a run fed the same URL twice emits at most one
record for it. -/
theorem C4_dedup_idempotent_witness :
    detailStep 5
        { jobsScraped := 1, scrapedUrls := ["https://www.jobberman.com/listings/a"],
          emitted := [{ url := "https://www.jobberman.com/listings/a", title := "Job A" }] }
        { url := "https://www.jobberman.com/listings/a", title := "Job A" }
      = { jobsScraped := 1, scrapedUrls := ["https://www.jobberman.com/listings/a"],
          emitted := [{ url := "https://www.jobberman.com/listings/a", title := "Job A" }] }
    ∧ countUrl (runDetails 5 initSt
        [{ url := "https://www.jobberman.com/listings/a", title := "Job A" },
         { url := "https://www.jobberman.com/listings/a", title := "Job A" }]).emitted
        "https://www.jobberman.com/listings/a" ≤ 1 :=
  ⟨C4_dedup_idempotent.2.1 5 _ _ (by decide),
   C4_dedup_idempotent.2.2.2.1 5 _ "https://www.jobberman.com/listings/a"⟩

/-- C5: the title gate.  A detail record whose merged title is empty
after normalization (`cleanText`) leaves the state untouched (the record
is dropped and the crawl continues), and every record a run ever emits
has a non-empty normalized title. -/
theorem C5_title_gate :
    (∀ (target : Nat) (s : CrawlSt) (t : Item),
        cleanTextV2 t.title = "" → detailStep target s t = s)
    ∧ (∀ (target : Nat) (ts : List Item) (r : Item),
        r ∈ (runDetails target initSt ts).emitted → cleanTextV2 r.title ≠ "") := by
  constructor
  · intro target s t h
    unfold detailStep
    split_ifs
    all_goals rfl
  · intro target ts r h
    rcases runDetails_emitted_titles target ts initSt r h with h0 | hok
    · simp [initSt] at h0
    · exact hok

/-- C5 witness: a concrete emitted record has a non-empty title. -/
theorem C5_title_gate_witness :
    cleanTextV2 ({ url := "https://www.jobberman.com/listings/a", title := "Job A" } : Item).title
      ≠ "" :=
  C5_title_gate.2 3 [{ url := "https://www.jobberman.com/listings/a", title := "Job A" }] _
    (by decide)

/-- C6 (amended): in the V4 `enrichFromJsonLd` (main.js 1918–1930) the
two description halves are replaced together — both or neither — and only
when both the sanitized HTML and the clean text of the structured
description are non-empty; the V2 variant (main.js 609–615) instead lets
each half fall back independently, so there one half alone can be
overridden (see the counterexample). -/
theorem C6_description_amended (j : JsonLdR) (f : FieldsR) (base : String) :
    ((enrichFromJsonLdV4 (some j) f base).description_html = f.description_html
      ∧ (enrichFromJsonLdV4 (some j) f base).description_text = f.description_text)
    ∨ ((enrichFromJsonLdV4 (some j) f base).description_html = descHtmlV4 base j.description
      ∧ (enrichFromJsonLdV4 (some j) f base).description_text = descTextV4 j.description
      ∧ descHtmlV4 base j.description ≠ ""
      ∧ cleanTextV4 (descTextV4 j.description) ≠ "") := by
  by_cases h : (j.description ≠ "" ∧ descHtmlV4 base j.description ≠ ""
      ∧ cleanTextV4 (descTextV4 j.description) ≠ "")
  · right
    refine ⟨?_, ?_, h.2.1, h.2.2⟩ <;> simp [enrichFromJsonLdV4, h]
  · left
    constructor <;> simp [enrichFromJsonLdV4, h]

/-- C7: pagination fallback of the V2 `findNextUrl`.  When the document
offers no next affordance (all three anchor queries come up empty), the
resolver increments an existing numeric `page` query parameter, else
appends the initial page-2 parameter; in particular
`"https://site/jobs?page=3"` yields `"https://site/jobs?page=4"` and
`"https://site/jobs"` yields `"https://site/jobs?page=2"`. -/
theorem C7_pagination_fallback :
    (∀ (doc : List Anchor) (currentUrl : String), nextLinkOf doc = "" →
        findNextUrlV2 doc currentUrl = some (pageFallback currentUrl))
    ∧ findNextUrlV2 [] "https://site/jobs?page=3" = some "https://site/jobs?page=4"
    ∧ findNextUrlV2 [] "https://site/jobs" = some "https://site/jobs?page=2" := by
  refine ⟨?_, by decide, by decide⟩
  intro doc u h
  simp [findNextUrlV2, h]

/-- C7 witness: the fallback branch taken on a concrete affordance-free
document and URL. -/
theorem C7_pagination_fallback_witness :
    findNextUrlV2 [] "https://site/jobs?q=nurse"
      = some (pageFallback "https://site/jobs?q=nurse") :=
  C7_pagination_fallback.1 [] "https://site/jobs?q=nurse" (by decide)

/-- C9 counterexample: the V2 `toAbs` (main.js 396–398) has no scheme
check, so a non-http(s) absolute URL passes through instead of becoming
`null`, falsifying "it never returns an absolute URL with a non-http(s)
scheme" for the resolver as a whole. -/
theorem C9_url_scheme_counterexample :
    toAbsV2 "mailto:someone@example.com" "https://www.jobberman.com"
      = some "mailto:someone@example.com"
    ∧ isHttpUrl "mailto:someone@example.com" = false := by
  decide

/-- C9 (amended): the V1/V3 `toAbs` (main.js 88–93, 1118–1123) returns
`null` on unparseable input and never returns a URL that fails
`/^https?:/i`; the V2 variant (396–398) returns whatever resolves,
regardless of scheme; the V4 variant (1742–1748) also applies no scheme
check and signals failure with `''` instead of `null`. -/
theorem C9_url_scheme_amended :
    (∀ href base abs, toAbsV1 href base = some abs → isHttpUrl abs = true)
    ∧ (∀ href base, jsURL href base = none → toAbsV1 href base = none)
    ∧ (∀ href base abs, jsURL href base = some abs → toAbsV2 href base = some abs)
    ∧ (∀ href base abs, jsURL href base = some abs → toAbsV4 href base = abs)
    ∧ (∀ href base, jsURL href base = none → toAbsV4 href base = "") := by
  refine ⟨?_, ?_, ?_, ?_, ?_⟩
  · intro href base abs h
    unfold toAbsV1 at h
    rcases hj : jsURL href base with _ | u <;> rw [hj] at h
    · exact absurd h (by simp)
    · by_cases hu : isHttpUrl u
      · simp [hu] at h; subst h; exact hu
      · simp [hu] at h
  · intro href base h
    unfold toAbsV1
    rw [h]
  · intro href base abs h
    unfold toAbsV2
    exact h
  · intro href base abs h
    unfold toAbsV4
    rw [h]; rfl
  · intro href base h
    unfold toAbsV4
    rw [h]; rfl

/-- C9 witness: a concrete https URL passes the V1 filter, and a
concrete unresolvable pair makes the V4 variant return `''`. -/
theorem C9_url_scheme_witness :
    isHttpUrl "https://www.jobberman.com/jobs" = true
    ∧ toAbsV4 "listings/42" "not a url" = "" :=
  ⟨C9_url_scheme_amended.1 "https://www.jobberman.com/jobs" "https://www.jobberman.com" _
      (by decide),
   C9_url_scheme_amended.2.2.2.2 "listings/42" "not a url" (by decide)⟩

/-- C10: the rendered salary range uses the currency preceding the first
amount for both amounts; the second captured currency (`m[3]`) never
influences the render when the first (`m[1]`) is non-empty — and the
matcher always captures a non-empty `m[1]`.  On the concrete line
`"NGN 100,000 - USD 200,000"` the `USD` is captured and discarded, and
the output carries `NGN` twice. -/
theorem C10_salary_currency :
    (∀ (m1 : String) (a1 : List Char) (c c2 : Option String) (a2 : Option (List Char)),
        m1 ≠ "" → renderSalary (m1, a1, c, a2) = renderSalary (m1, a1, c2, a2))
    ∧ matchSalary "NGN 100,000 - USD 200,000"
        = some ("NGN", "100,000".data, some "USD", some "200,000".data)
    ∧ salaryFromLine "NGN 100,000 - USD 200,000" = "NGN 100,000 - NGN 200,000"
    ∧ containsSub (salaryFromLine "NGN 100,000 - USD 200,000") "USD" = false := by
  refine ⟨?_, by decide, by decide, by decide⟩
  intro m1 a1 c c2 a2 h
  simp [renderSalary, jsOr, h]

/-- C10 witness: the render is unchanged when the discarded second
currency is swapped. -/
theorem C10_salary_currency_witness :
    renderSalary ("NGN", "100,000".data, some "USD", some "200,000".data)
      = renderSalary ("NGN", "100,000".data, some "ZAR", some "200,000".data) :=
  C10_salary_currency.1 "NGN" "100,000".data (some "USD") (some "ZAR")
    (some "200,000".data) (by decide)

end Jobberman
